import Mathlib

/-!
Shallow embedding of `scripts/build_sqlite_warehouse.py`: a pandas→SQLite
star-schema builder.  Raw CSV rows are cleaned, four dimension tables are
derived by deduplication, and fact rows are produced by left-merging the
cleaned records against the dimensions.

Modelling conventions:
* Numeric CSV fields are embedded as `Option Rat`: `some q` is the exact value
  returned by `pd.to_numeric(..., errors="coerce")`, `none` is NaN (parse
  failure or missing cell).  Likewise the invoice timestamp is `Option
  Timestamp`, with `none` standing for NaT from
  `pd.to_datetime(..., errors="coerce")`.
* `astype(int)` on a float column truncates toward zero (`truncToInt`);
  `astype("Int64")` raises on non-integral floats, which is modelled as an
  `Except` error (`CleanError.nonIntegralCustomerId`).
* SQLite `INTEGER PRIMARY KEY AUTOINCREMENT` keys are `1, 2, …` in insert
  order (`enumKeysFrom 1`).
-/

set_option maxRecDepth 40000
set_option synthInstance.maxSize 512

deriving instance DecidableEq for Except

/-- A parsed invoice timestamp, the payload of a non-NaT result of
`pd.to_datetime`.  Real pandas timestamps have `1 ≤ month ≤ 12` and a
four-digit year. -/
structure Timestamp where
  year : Nat
  month : Nat
  day : Nat
  hour : Nat
  minute : Nat
  second : Nat
deriving DecidableEq

/-- One raw CSV row, with the pandas parses of lines 52, 56, 57 and 71 already
applied to the numeric/timestamp fields (`none` = NaN/NaT). -/
structure RawRecord where
  invoice : String
  stockCode : String
  description : String
  quantity : Option Rat
  invoiceDate : Option Timestamp
  price : Option Rat
  customerId : Option Rat
  country : String
deriving DecidableEq

/-- Zero-pad a number to two digits, as strftime does for `%m %d %H %M %S`. -/
def pad2 (n : Nat) : String :=
  if n < 10 then "0" ++ toString n else toString n

/-- Zero-pad a number to four digits, as strftime does for `%Y`. -/
def pad4 (n : Nat) : String :=
  if n < 10 then "000" ++ toString n
  else if n < 100 then "00" ++ toString n
  else if n < 1000 then "0" ++ toString n
  else toString n

/-- Model of `dt.strftime("%Y-%m-%d")` (line 78). -/
def formatDate (t : Timestamp) : String :=
  pad4 t.year ++ "-" ++ pad2 t.month ++ "-" ++ pad2 t.day

/-- Model of `dt.strftime("%Y-%m-%d %H:%M:%S")` (line 77). -/
def formatDatetime (t : Timestamp) : String :=
  formatDate t ++ " " ++ pad2 t.hour ++ ":" ++ pad2 t.minute ++ ":" ++ pad2 t.second

/-- Model of `dt.strftime("%b")` (line 81): English three-letter month abbreviation. -/
def monthAbbrev : Nat → String
  | 1 => "Jan"
  | 2 => "Feb"
  | 3 => "Mar"
  | 4 => "Apr"
  | 5 => "May"
  | 6 => "Jun"
  | 7 => "Jul"
  | 8 => "Aug"
  | 9 => "Sep"
  | 10 => "Oct"
  | 11 => "Nov"
  | 12 => "Dec"
  | _ => ""

/-- The numpy float→int cast performed by `astype(int)` (line 88): truncation
toward zero.  `Int.tdiv` is T-division, which truncates toward zero. -/
def truncToInt (q : Rat) : Int :=
  if q.den = 1 then q.num else q.num.tdiv (q.den : Int)

/-- A record after the cleaning/derivation block (lines 52–91). -/
structure CleanedRecord where
  invoiceNo : String
  invoiceDatetime : String
  fullDate : String
  year : Int
  month : Int
  monthName : String
  quarter : Int
  stockCode : String
  description : String
  country : String
  customerId : String
  quantity : Int
  unitPrice : Rat
  revenue : Rat
  isReturn : Int
deriving DecidableEq

/-- Errors that abort the cleaning block with a Python exception. -/
inductive CleanError
  /-- The cast `astype("Int64")` on line 72 raises `TypeError: cannot safely cast
  non-equivalent float64 to int64` when a parsed customer id is not
  integer-valued. -/
  | nonIntegralCustomerId
  /-- Unreachable guard: a record reached `cleanSurvivor` with a NaN/NaT field
  that the filters of lines 52–58 should have removed. -/
  | missingParsedField
deriving DecidableEq

/-- Lines 71–73: `pd.to_numeric(errors="coerce")` then `astype("Int64")`,
`astype(str)`, `.str.strip()`, and the `"<NA>" ↦ "GUEST"` replacement.
NaN becomes `"GUEST"`; an integer-valued number is rendered as its integer
string; a non-integral number makes `astype("Int64")` raise. -/
def renderCustomerId (c : Option Rat) : Except CleanError String :=
  match c with
  | none => .ok "GUEST"
  | some v => if v.den = 1 then .ok (toString v.num) else .error .nonIntegralCustomerId

/-- Line 53: keep rows whose invoice timestamp parsed. -/
def filterDate (rs : List RawRecord) : List RawRecord :=
  rs.filter (fun r => r.invoiceDate.isSome)

/-- Line 58: keep rows whose quantity and price both parsed. -/
def filterNumeric (rs : List RawRecord) : List RawRecord :=
  rs.filter (fun r => r.quantity.isSome && r.price.isSome)

/-- Line 61: keep rows with nonzero quantity and strictly positive price.
By this point the fields are non-NaN, so `getD 0` reads the actual value. -/
def filterQtyPrice (rs : List RawRecord) : List RawRecord :=
  rs.filter (fun r => decide (r.quantity.getD 0 ≠ 0) && decide (0 < r.price.getD 0))

/-- The rows remaining after the three row filters of lines 52–61. -/
def survivors (rs : List RawRecord) : List RawRecord :=
  filterQtyPrice (filterNumeric (filterDate rs))

/-- The conjunction of the three row-filter predicates, as a single test. -/
def keepRow (r : RawRecord) : Bool :=
  (r.invoiceDate.isSome && (r.quantity.isSome && r.price.isSome)) &&
    (decide (r.quantity.getD 0 ≠ 0) && decide (0 < r.price.getD 0))

/-- Column-wise fallible map: the whole operation raises if any element does,
as a pandas column cast does. -/
def mapExcept (f : α → Except ε β) : List α → Except ε (List β)
  | [] => .ok []
  | x :: xs =>
    match f x with
    | .error e => .error e
    | .ok b =>
      match mapExcept f xs with
      | .error e => .error e
      | .ok bs => .ok (b :: bs)

/-- Lines 64–91 applied to one surviving row: trim the text fields, normalize
the customer id, and derive the date components, quantity, price, revenue and
return flag. -/
def cleanSurvivor (r : RawRecord) : Except CleanError CleanedRecord :=
  match r.invoiceDate, r.quantity, r.price with
  | some t, some q, some p =>
    match renderCustomerId r.customerId with
    | .error e => .error e
    | .ok cid =>
      .ok {
        invoiceNo := r.invoice.trim
        invoiceDatetime := formatDatetime t
        fullDate := formatDate t
        year := (t.year : Int)
        month := (t.month : Int)
        monthName := monthAbbrev t.month
        quarter := ((t.month : Int) - 1).ediv 3 + 1
        stockCode := r.stockCode.trim
        description := r.description.trim
        country := r.country.trim
        customerId := cid
        quantity := truncToInt q
        unitPrice := p
        revenue := (truncToInt q : Rat) * p
        isReturn := if truncToInt q < 0 then 1 else 0 }
  | _, _, _ => .error .missingParsedField

/-- The whole cleaning/normalization block (lines 52–91): filter the rows,
then apply the per-row derivations; the customer-id cast can abort the run. -/
def cleanStage (rs : List RawRecord) : Except CleanError (List CleanedRecord) :=
  mapExcept cleanSurvivor (survivors rs)

/-- Single pass of first-seen deduplication, carrying the set of keys already
emitted. -/
def dropDuplicatesByAux [DecidableEq β] (key : α → β) : List β → List α → List α
  | _, [] => []
  | seen, x :: xs =>
    if key x ∈ seen then dropDuplicatesByAux key seen xs
    else x :: dropDuplicatesByAux key (key x :: seen) xs

/-- Pandas `drop_duplicates` generalized to a key function: keep the first row
of each group of rows sharing a key.  With `key = id` this is exactly
`drop_duplicates`; with a proper key it is SQLite's `INSERT OR IGNORE` into a
table whose UNIQUE constraint is on `key`. -/
def dropDuplicatesBy [DecidableEq β] (key : α → β) (l : List α) : List α :=
  dropDuplicatesByAux key [] l

/-- Pair each list element with a surrogate key, counting from `n`; SQLite's
AUTOINCREMENT primary keys are this with `n = 1`. -/
def enumKeysFrom (n : Nat) : List α → List (Nat × α)
  | [] => []
  | x :: xs => (n, x) :: enumKeysFrom (n + 1) xs

/-- Model of `INSERT OR IGNORE INTO dim(...) SELECT ... FROM tmp` against a freshly
created table with AUTOINCREMENT keys and a UNIQUE constraint on `key`:
first-seen rows per key, numbered from 1. -/
def insertOrIgnore [DecidableEq β] (key : α → β) (l : List α) : List (Nat × α) :=
  enumKeysFrom 1 (dropDuplicatesBy key l)

/-- The denormalized attribute tuple selected into `tmp_date` (line 177). -/
structure DateAttrs where
  fullDate : String
  year : Int
  month : Int
  monthName : String
  quarter : Int
deriving DecidableEq

/-- The `(full_date, year, month, month_name, quarter)` tuple of one cleaned
record. -/
def dateAttrsOf (r : CleanedRecord) : DateAttrs :=
  ⟨r.fullDate, r.year, r.month, r.monthName, r.quarter⟩

/-- Table `dim_customer` (lines 156–159): distinct customer ids, keyed in first-seen
order. -/
def dimCustomer (cleaned : List CleanedRecord) : List (Nat × String) :=
  insertOrIgnore id (dropDuplicatesBy id (cleaned.map (fun r => r.customerId)))

/-- Table `dim_product` (lines 161–169): distinct `(stock_code, description)` pairs,
keyed in first-seen order. -/
def dimProduct (cleaned : List CleanedRecord) : List (Nat × (String × String)) :=
  insertOrIgnore id (dropDuplicatesBy id (cleaned.map (fun r => (r.stockCode, r.description))))

/-- Table `dim_country` (lines 171–174): distinct countries, keyed in first-seen
order. -/
def dimCountry (cleaned : List CleanedRecord) : List (Nat × String) :=
  insertOrIgnore id (dropDuplicatesBy id (cleaned.map (fun r => r.country)))

/-- Table `dim_date` (lines 176–186): distinct attribute tuples from pandas, then
`INSERT OR IGNORE` keyed on the UNIQUE `full_date` column alone. -/
def dimDate (cleaned : List CleanedRecord) : List (Nat × DateAttrs) :=
  insertOrIgnore (fun d => d.fullDate) (dropDuplicatesBy id (cleaned.map dateAttrsOf))

/-- One row of `fact_sales` as assembled into `fact_out` (lines 226–239):
surrogate keys are `none` where a merge found no dimension row. -/
structure FactRow where
  invoiceNo : String
  invoiceDatetime : String
  dateKey : Option Nat
  customerKey : Option Nat
  productKey : Option Nat
  countryKey : Option Nat
  quantity : Int
  unitPrice : Rat
  revenue : Rat
  isReturn : Int
deriving DecidableEq

/-- One left-merge (`how="left"`) of a single fact row's natural key against a
dimension: every matching dimension row contributes a copy of the fact row
with that surrogate key; an unmatched fact row is kept once with a null key. -/
def mergeLeft [DecidableEq γ] (k : γ) (key : β → γ) (dim : List (Nat × β)) :
    List (Option Nat) :=
  let ms := dim.filter (fun e => decide (key e.2 = k))
  if ms.isEmpty then [none] else ms.map (fun e => some e.1)

/-- The four successive left merges of lines 215–220 applied to one cleaned
record, producing its fact rows (exactly one when all dimension keys are
unique, which the dimension builder guarantees). -/
def resolveRecord (dD : List (Nat × DateAttrs)) (dC : List (Nat × String))
    (dCo : List (Nat × String)) (dP : List (Nat × (String × String)))
    (r : CleanedRecord) : List FactRow :=
  (mergeLeft r.fullDate (fun d => d.fullDate) dD).flatMap fun dk =>
    (mergeLeft r.customerId id dC).flatMap fun ck =>
      (mergeLeft r.country id dCo).flatMap fun cok =>
        (mergeLeft (r.stockCode, r.description) id dP).map fun pk =>
          { invoiceNo := r.invoiceNo
            invoiceDatetime := r.invoiceDatetime
            dateKey := dk
            customerKey := ck
            productKey := pk
            countryKey := cok
            quantity := r.quantity
            unitPrice := r.unitPrice
            revenue := r.revenue
            isReturn := r.isReturn }

/-- The fact-resolution step (lines 192–220): build the four dimensions from
the cleaned records and merge every cleaned record against them. -/
def resolveFacts (cleaned : List CleanedRecord) : List FactRow :=
  cleaned.flatMap
    (resolveRecord (dimDate cleaned) (dimCustomer cleaned) (dimCountry cleaned)
      (dimProduct cleaned))

/-- The per-dimension missing-key counts of line 222
(`fact[[...]].isna().sum().to_dict()`). -/
structure MissingCounts where
  dateMissing : Nat
  customerMissing : Nat
  countryMissing : Nat
  productMissing : Nat
deriving DecidableEq

/-- Count the null surrogate keys per dimension over the merged fact rows. -/
def missingCounts (facts : List FactRow) : MissingCounts where
  dateMissing := facts.countP (fun f => f.dateKey.isNone)
  customerMissing := facts.countP (fun f => f.customerKey.isNone)
  countryMissing := facts.countP (fun f => f.countryKey.isNone)
  productMissing := facts.countP (fun f => f.productKey.isNone)

/-- The per-stage drop categories named by the spec's cleaning rules.  The
script never reports such counts; the constructor exists so that the log can
be quantified over. -/
inductive DropStage
  | malformedTimestamp
  | malformedNumeric
  | zeroQuantity
  | nonPositivePrice
deriving DecidableEq

/-- One operator-facing diagnostic line printed by the script. -/
inductive LogMsg
  /-- Line 224: `WARNING: Missing keys after merges`. -/
  | missingKeyWarning (counts : MissingCounts)
  /-- Line 248: `fact_sales rows: n`. -/
  | factRowCount (n : Nat)
  /-- Line 249: one row of the `GROUP BY is_return` breakdown. -/
  | returnsCount (isReturn : Int) (n : Nat)
  /-- A per-stage drop counter.  Never emitted by the script. -/
  | droppedAtStage (stage : DropStage) (n : Nat)
deriving DecidableEq

/-- Test for a per-stage drop counter message. -/
def isDropMsg : LogMsg → Bool
  | .droppedAtStage _ _ => true
  | _ => false

/-- Lines 222–224: print the missing-key warning exactly when some surrogate
key failed to resolve (`any(v > 0 for v in missing.values())`). -/
def keyWarnings (facts : List FactRow) : List LogMsg :=
  if 0 < (missingCounts facts).dateMissing ∨
      0 < (missingCounts facts).customerMissing ∨
      0 < (missingCounts facts).countryMissing ∨
      0 < (missingCounts facts).productMissing then
    [.missingKeyWarning (missingCounts facts)]
  else
    []

/-- Line 242: `fact_out.to_sql(..., if_exists="append")` writes every merged
row, null keys included. -/
def loadFacts (facts : List FactRow) : List FactRow :=
  facts

/-- Lines 246–249: the `GROUP BY is_return` sanity-check counts, in first-seen
group order. -/
def returnsBreakdown (facts : List FactRow) : List (Int × Nat) :=
  (dropDuplicatesBy id (facts.map (fun f => f.isReturn))).map
    (fun v => (v, facts.countP (fun f => decide (f.isReturn = v))))

/-- Every diagnostic the script prints about the data after cleaning: the
missing-key warning (if any), the fact row count, and the returns breakdown.
A run aborted by a cleaning exception prints none of them. -/
def runLog (rows : List RawRecord) : List LogMsg :=
  match cleanStage rows with
  | .error _ => []
  | .ok cleaned =>
    let facts := resolveFacts cleaned
    keyWarnings facts ++ [.factRowCount (loadFacts facts).length] ++
      (returnsBreakdown facts).map (fun p => .returnsCount p.1 p.2)

/-- The payload of the `KeyError` raised by `col` (lines 23–29): the required
name that was not matched and the columns actually present. -/
structure MissingColumn where
  name : String
  found : List String
deriving DecidableEq

/-- Lines 23–29: find the first column whose stripped, lowercased name equals
the stripped, lowercased required name; otherwise raise `KeyError` naming the
missing column and listing the columns found. -/
def col (columns : List String) (name : String) : Except MissingColumn String :=
  match columns.find? (fun c => decide (c.trim.toLower = name.trim.toLower)) with
  | some c => .ok c
  | none => .error ⟨name, columns⟩

/-- The eight required input columns (lines 41–48). -/
def requiredColumns : List String :=
  ["Invoice", "StockCode", "Description", "Quantity", "InvoiceDate", "Price",
   "Customer ID", "Country"]

/-- Lines 41–48: resolve all eight required columns before any row is
processed; the first missing one aborts the run. -/
def resolveColumns (columns : List String) : Except MissingColumn (List String) :=
  mapExcept (col columns) requiredColumns

/-- A fatal run error: a missing required column, or a cleaning-stage
exception. -/
inductive RunError
  | missingColumn (m : MissingColumn)
  | cleanFailure (e : CleanError)
deriving DecidableEq

/-- Everything a successful run leaves behind: the five persisted tables and
the printed diagnostics. -/
structure RunResult where
  cleaned : List CleanedRecord
  dimCustomerTable : List (Nat × String)
  dimProductTable : List (Nat × (String × String))
  dimCountryTable : List (Nat × String)
  dimDateTable : List (Nat × DateAttrs)
  factTable : List FactRow
  log : List LogMsg
deriving DecidableEq

/-- Assemble the tables and diagnostics from the cleaned records. -/
def buildResult (cleaned : List CleanedRecord) : RunResult :=
  let facts := resolveFacts cleaned
  { cleaned := cleaned
    dimCustomerTable := dimCustomer cleaned
    dimProductTable := dimProduct cleaned
    dimCountryTable := dimCountry cleaned
    dimDateTable := dimDate cleaned
    factTable := loadFacts facts
    log := keyWarnings facts ++ [.factRowCount (loadFacts facts).length] ++
      (returnsBreakdown facts).map (fun p => .returnsCount p.1 p.2) }

/-- The whole `main` pipeline on one input file, given its header and its
rows: resolve the columns (aborting on a missing one before any row is
touched), clean, build dimensions, resolve and load facts. -/
def runFile (columns : List String) (rows : List RawRecord) :
    Except RunError RunResult :=
  match resolveColumns columns with
  | .error m => .error (.missingColumn m)
  | .ok _ =>
    match cleanStage rows with
    | .error e => .error (.cleanFailure e)
    | .ok cleaned => .ok (buildResult cleaned)

/-! Properties of first-seen deduplication. -/

theorem mem_of_mem_dropDuplicatesByAux [DecidableEq β] (key : α → β) :
    ∀ (seen : List β) (l : List α) (a : α),
      a ∈ dropDuplicatesByAux key seen l → a ∈ l := by
  intro seen l
  induction l generalizing seen with
  | nil => intro a h; simp [dropDuplicatesByAux] at h
  | cons x xs ih =>
    intro a h
    simp only [dropDuplicatesByAux] at h
    split at h
    · exact List.mem_cons_of_mem _ (ih _ _ h)
    · rcases List.mem_cons.mp h with h1 | h2
      · exact h1 ▸ List.mem_cons_self _ _
      · exact List.mem_cons_of_mem _ (ih _ _ h2)

theorem dropDuplicatesByAux_covers [DecidableEq β] (key : α → β) :
    ∀ (seen : List β) (l : List α) (a : α), a ∈ l → key a ∉ seen →
      ∃ b ∈ dropDuplicatesByAux key seen l, key b = key a := by
  intro seen l
  induction l generalizing seen with
  | nil => intro a ha _; simp at ha
  | cons x xs ih =>
    intro a ha hseen
    simp only [dropDuplicatesByAux]
    rcases List.mem_cons.mp ha with rfl | ha'
    · split
      next hx => exact absurd hx hseen
      next hx => exact ⟨a, List.mem_cons_self _ _, rfl⟩
    · split
      next hx => exact ih seen a ha' hseen
      next hx =>
        by_cases hk : key a = key x
        · exact ⟨x, List.mem_cons_self _ _, hk.symm⟩
        · obtain ⟨b, hb, hbk⟩ := ih (key x :: seen) a ha' (by simp [hk, hseen])
          exact ⟨b, List.mem_cons_of_mem _ hb, hbk⟩

theorem dropDuplicatesByAux_nodup [DecidableEq β] (key : α → β) :
    ∀ (seen : List β) (l : List α),
      ((dropDuplicatesByAux key seen l).map key).Nodup ∧
        ∀ b ∈ dropDuplicatesByAux key seen l, key b ∉ seen := by
  intro seen l
  induction l generalizing seen with
  | nil => simp [dropDuplicatesByAux]
  | cons x xs ih =>
    simp only [dropDuplicatesByAux]
    split
    · exact ih seen
    next hx =>
      obtain ⟨hnd, hnotin⟩ := ih (key x :: seen)
      refine ⟨?_, ?_⟩
      · simp only [List.map_cons, List.nodup_cons]
        refine ⟨?_, hnd⟩
        intro hmem
        obtain ⟨b, hb, hbk⟩ := List.mem_map.mp hmem
        exact (hnotin b hb) (by simp [hbk])
      · intro b hb
        rcases List.mem_cons.mp hb with rfl | hb'
        · exact hx
        · exact fun hbs => (hnotin b hb') (List.mem_cons_of_mem _ hbs)

theorem mem_of_mem_dropDuplicatesBy [DecidableEq β] (key : α → β) (l : List α)
    (a : α) (h : a ∈ dropDuplicatesBy key l) : a ∈ l :=
  mem_of_mem_dropDuplicatesByAux key [] l a h

theorem dropDuplicatesBy_covers [DecidableEq β] (key : α → β) (l : List α)
    (a : α) (h : a ∈ l) : ∃ b ∈ dropDuplicatesBy key l, key b = key a :=
  dropDuplicatesByAux_covers key [] l a h (List.not_mem_nil _)

theorem dropDuplicatesBy_nodup [DecidableEq β] (key : α → β) (l : List α) :
    ((dropDuplicatesBy key l).map key).Nodup :=
  (dropDuplicatesByAux_nodup key [] l).1

theorem mem_dropDuplicatesBy_id [DecidableEq α] (l : List α) (a : α) :
    a ∈ dropDuplicatesBy id l ↔ a ∈ l := by
  constructor
  · exact mem_of_mem_dropDuplicatesBy id l a
  · intro h
    obtain ⟨b, hb, hbk⟩ := dropDuplicatesBy_covers id l a h
    simpa [show b = a from hbk] using hb

/-! Properties of surrogate-key assignment. -/

theorem mem_of_mem_enumKeysFrom :
    ∀ (n : Nat) (l : List α) (e : Nat × α), e ∈ enumKeysFrom n l → e.2 ∈ l := by
  intro n l
  induction l generalizing n with
  | nil => intro e h; simp [enumKeysFrom] at h
  | cons x xs ih =>
    intro e h
    simp only [enumKeysFrom, List.mem_cons] at h
    rcases h with rfl | h'
    · exact List.mem_cons_self _ _
    · exact List.mem_cons_of_mem _ (ih _ _ h')

theorem enumKeysFrom_covers :
    ∀ (n : Nat) (l : List α) (a : α), a ∈ l → ∃ k, (k, a) ∈ enumKeysFrom n l := by
  intro n l
  induction l generalizing n with
  | nil => intro a h; simp at h
  | cons x xs ih =>
    intro a h
    rcases List.mem_cons.mp h with rfl | h'
    · exact ⟨n, List.mem_cons_self _ _⟩
    · obtain ⟨k, hk⟩ := ih (n + 1) a h'
      exact ⟨k, List.mem_cons_of_mem _ hk⟩

theorem enumKeysFrom_map_snd (f : α → β) :
    ∀ (n : Nat) (l : List α),
      (enumKeysFrom n l).map (fun e => f e.2) = l.map f := by
  intro n l
  induction l generalizing n with
  | nil => rfl
  | cons x xs ih => simp [enumKeysFrom, ih]

theorem enumKeysFrom_filter_snd_length (p : α → Bool) :
    ∀ (n : Nat) (l : List α),
      ((enumKeysFrom n l).filter (fun e => p e.2)).length =
        (l.filter p).length := by
  intro n l
  induction l generalizing n with
  | nil => rfl
  | cons x xs ih =>
    simp only [enumKeysFrom, List.filter_cons]
    by_cases hx : p x
    · simp [hx, ih]
    · simp [hx, ih]

/-! Properties of the left merge and the fact resolver. -/

theorem mergeLeft_of_filter_eq_nil [DecidableEq γ] (k : γ) (key : β → γ)
    (dim : List (Nat × β))
    (h : dim.filter (fun e => decide (key e.2 = k)) = []) :
    mergeLeft k key dim = [none] := by
  simp [mergeLeft, h]

theorem mergeLeft_of_filter_ne_nil [DecidableEq γ] (k : γ) (key : β → γ)
    (dim : List (Nat × β))
    (h : dim.filter (fun e => decide (key e.2 = k)) ≠ []) :
    mergeLeft k key dim =
      (dim.filter (fun e => decide (key e.2 = k))).map (fun e => some e.1) := by
  obtain ⟨y, ys, hys⟩ := List.exists_cons_of_ne_nil h
  simp [mergeLeft, hys]

theorem mergeLeft_found [DecidableEq γ] (k : γ) (key : β → γ)
    (dim : List (Nat × β)) (hex : ∃ e ∈ dim, key e.2 = k) :
    ∀ o ∈ mergeLeft k key dim, ∃ e ∈ dim, o = some e.1 ∧ key e.2 = k := by
  intro o ho
  obtain ⟨e0, he0, hk0⟩ := hex
  have hne : dim.filter (fun e => decide (key e.2 = k)) ≠ [] := by
    intro hnil
    have hmem : e0 ∈ dim.filter (fun e => decide (key e.2 = k)) := by
      simp [List.mem_filter, he0, hk0]
    rw [hnil] at hmem
    exact List.not_mem_nil _ hmem
  rw [mergeLeft_of_filter_ne_nil k key dim hne] at ho
  obtain ⟨e, he, rfl⟩ := List.mem_map.mp ho
  have hef := List.mem_filter.mp he
  exact ⟨e, hef.1, rfl, by simpa using hef.2⟩

theorem length_filter_key_le_one [DecidableEq γ] (key : α → γ) (k : γ) :
    ∀ l : List α, (l.map key).Nodup →
      (l.filter (fun a => decide (key a = k))).length ≤ 1 := by
  intro l
  induction l with
  | nil => intro _; simp
  | cons x xs ih =>
    intro hnd
    rw [List.map_cons, List.nodup_cons] at hnd
    rw [List.filter_cons]
    by_cases hx : key x = k
    · have hnil : xs.filter (fun a => decide (key a = k)) = [] := by
        rw [List.filter_eq_nil_iff]
        intro a ha hak
        have hka : key a = key x := by rw [hx]; exact of_decide_eq_true hak
        exact hnd.1 (hka ▸ List.mem_map_of_mem key ha)
      simp [hx, hnil]
    · simpa [hx] using ih hnd.2

theorem mergeLeft_length_one [DecidableEq γ] (k : γ) (key : β → γ)
    (dim : List (Nat × β)) (hnd : (dim.map (fun e => key e.2)).Nodup) :
    (mergeLeft k key dim).length = 1 := by
  cases hms : dim.filter (fun e => decide (key e.2 = k)) with
  | nil => rw [mergeLeft_of_filter_eq_nil k key dim hms]; rfl
  | cons y ys =>
    have hle := length_filter_key_le_one (fun e => key e.2) k dim hnd
    rw [hms] at hle
    have hys : ys = [] := by
      cases ys with
      | nil => rfl
      | cons z zs => simp at hle
    subst hys
    rw [mergeLeft_of_filter_ne_nil k key dim (by rw [hms]; exact List.cons_ne_nil _ _), hms]
    rfl

theorem insertOrIgnore_key_nodup [DecidableEq β] (key : α → β) (l : List α) :
    ((insertOrIgnore key l).map (fun e => key e.2)).Nodup := by
  rw [insertOrIgnore, enumKeysFrom_map_snd]
  exact dropDuplicatesBy_nodup key l

theorem insertOrIgnore_covers [DecidableEq β] (key : α → β) (l : List α) (a : α)
    (h : a ∈ l) : ∃ e ∈ insertOrIgnore key l, key e.2 = key a := by
  obtain ⟨b, hb, hbk⟩ := dropDuplicatesBy_covers key l a h
  obtain ⟨k, hk⟩ := enumKeysFrom_covers 1 _ b hb
  exact ⟨(k, b), hk, hbk⟩

theorem dimCustomer_covers (cleaned : List CleanedRecord) (r : CleanedRecord)
    (hr : r ∈ cleaned) : ∃ e ∈ dimCustomer cleaned, e.2 = r.customerId := by
  have h1 : r.customerId ∈ cleaned.map (fun r => r.customerId) :=
    List.mem_map_of_mem _ hr
  have h2 := (mem_dropDuplicatesBy_id (cleaned.map (fun r => r.customerId))
    r.customerId).mpr h1
  obtain ⟨e, he, hek⟩ := insertOrIgnore_covers id _ _ h2
  exact ⟨e, he, by simpa using hek⟩

theorem dimProduct_covers (cleaned : List CleanedRecord) (r : CleanedRecord)
    (hr : r ∈ cleaned) :
    ∃ e ∈ dimProduct cleaned, e.2 = (r.stockCode, r.description) := by
  have h1 : (r.stockCode, r.description) ∈
      cleaned.map (fun r => (r.stockCode, r.description)) :=
    List.mem_map_of_mem _ hr
  have h2 := (mem_dropDuplicatesBy_id
    (cleaned.map (fun r => (r.stockCode, r.description)))
    (r.stockCode, r.description)).mpr h1
  obtain ⟨e, he, hek⟩ := insertOrIgnore_covers id _ _ h2
  exact ⟨e, he, by simpa using hek⟩

theorem dimCountry_covers (cleaned : List CleanedRecord) (r : CleanedRecord)
    (hr : r ∈ cleaned) : ∃ e ∈ dimCountry cleaned, e.2 = r.country := by
  have h1 : r.country ∈ cleaned.map (fun r => r.country) :=
    List.mem_map_of_mem _ hr
  have h2 := (mem_dropDuplicatesBy_id (cleaned.map (fun r => r.country))
    r.country).mpr h1
  obtain ⟨e, he, hek⟩ := insertOrIgnore_covers id _ _ h2
  exact ⟨e, he, by simpa using hek⟩

theorem dimDate_covers (cleaned : List CleanedRecord) (r : CleanedRecord)
    (hr : r ∈ cleaned) : ∃ e ∈ dimDate cleaned, e.2.fullDate = r.fullDate := by
  have h1 : dateAttrsOf r ∈ cleaned.map dateAttrsOf := List.mem_map_of_mem _ hr
  have h2 := (mem_dropDuplicatesBy_id (cleaned.map dateAttrsOf)
    (dateAttrsOf r)).mpr h1
  obtain ⟨e, he, hek⟩ :=
    insertOrIgnore_covers (fun d => d.fullDate) _ _ h2
  exact ⟨e, he, hek⟩

theorem mem_resolveRecord (dD : List (Nat × DateAttrs)) (dC : List (Nat × String))
    (dCo : List (Nat × String)) (dP : List (Nat × (String × String)))
    (r : CleanedRecord) (f : FactRow) (h : f ∈ resolveRecord dD dC dCo dP r) :
    f.dateKey ∈ mergeLeft r.fullDate (fun d => d.fullDate) dD ∧
      f.customerKey ∈ mergeLeft r.customerId id dC ∧
      f.countryKey ∈ mergeLeft r.country id dCo ∧
      f.productKey ∈ mergeLeft (r.stockCode, r.description) id dP := by
  simp only [resolveRecord, List.mem_flatMap, List.mem_map] at h
  obtain ⟨dk, hdk, ck, hck, cok, hcok, pk, hpk, rfl⟩ := h
  exact ⟨hdk, hck, hcok, hpk⟩

theorem resolveRecord_length (dD : List (Nat × DateAttrs))
    (dC : List (Nat × String)) (dCo : List (Nat × String))
    (dP : List (Nat × (String × String))) (r : CleanedRecord)
    (h1 : (dD.map (fun e => e.2.fullDate)).Nodup)
    (h2 : (dC.map (fun e => e.2)).Nodup)
    (h3 : (dCo.map (fun e => e.2)).Nodup)
    (h4 : (dP.map (fun e => e.2)).Nodup) :
    (resolveRecord dD dC dCo dP r).length = 1 := by
  obtain ⟨dk, hdk⟩ := List.length_eq_one.mp
    (mergeLeft_length_one r.fullDate (fun d => d.fullDate) dD (by simpa using h1))
  obtain ⟨ck, hck⟩ := List.length_eq_one.mp
    (mergeLeft_length_one r.customerId id dC (by simpa using h2))
  obtain ⟨cok, hcok⟩ := List.length_eq_one.mp
    (mergeLeft_length_one r.country id dCo (by simpa using h3))
  obtain ⟨pk, hpk⟩ := List.length_eq_one.mp
    (mergeLeft_length_one (r.stockCode, r.description) id dP (by simpa using h4))
  simp [resolveRecord, hdk, hck, hcok, hpk]

theorem resolveFacts_length (cleaned : List CleanedRecord) :
    (resolveFacts cleaned).length = cleaned.length := by
  have h1 : ((dimDate cleaned).map (fun e => e.2.fullDate)).Nodup := by
    simpa using insertOrIgnore_key_nodup (fun d : DateAttrs => d.fullDate)
      (dropDuplicatesBy id (cleaned.map dateAttrsOf))
  have h2 : ((dimCustomer cleaned).map (fun e => e.2)).Nodup := by
    simpa using insertOrIgnore_key_nodup (id : String → String)
      (dropDuplicatesBy id (cleaned.map (fun r => r.customerId)))
  have h3 : ((dimCountry cleaned).map (fun e => e.2)).Nodup := by
    simpa using insertOrIgnore_key_nodup (id : String → String)
      (dropDuplicatesBy id (cleaned.map (fun r => r.country)))
  have h4 : ((dimProduct cleaned).map (fun e => e.2)).Nodup := by
    simpa using insertOrIgnore_key_nodup (id : String × String → String × String)
      (dropDuplicatesBy id (cleaned.map (fun r => (r.stockCode, r.description))))
  suffices h : ∀ l : List CleanedRecord,
      (l.flatMap (resolveRecord (dimDate cleaned) (dimCustomer cleaned)
        (dimCountry cleaned) (dimProduct cleaned))).length = l.length by
    exact h cleaned
  intro l
  induction l with
  | nil => rfl
  | cons x xs ih =>
    rw [List.flatMap_cons, List.length_append, ih,
      resolveRecord_length _ _ _ _ x h1 h2 h3 h4, List.length_cons]
    omega

/-! Properties of the cleaning stage. -/

theorem mapExcept_ok_mem (f : α → Except ε β) :
    ∀ (l : List α) (l' : List β), mapExcept f l = .ok l' →
      ∀ b ∈ l', ∃ a ∈ l, f a = .ok b := by
  intro l
  induction l with
  | nil =>
    intro l' h b hb
    simp only [mapExcept, Except.ok.injEq] at h
    subst h
    simp at hb
  | cons x xs ih =>
    intro l' h b hb
    simp only [mapExcept] at h
    cases hfx : f x with
    | error e => rw [hfx] at h; simp at h
    | ok c =>
      rw [hfx] at h
      cases hrest : mapExcept f xs with
      | error e => rw [hrest] at h; simp at h
      | ok cs =>
        rw [hrest] at h
        simp only [Except.ok.injEq] at h
        subst h
        rcases List.mem_cons.mp hb with rfl | hb'
        · exact ⟨x, List.mem_cons_self _ _, hfx⟩
        · obtain ⟨a, ha, hfa⟩ := ih cs hrest b hb'
          exact ⟨a, List.mem_cons_of_mem _ ha, hfa⟩

theorem mem_survivors (rs : List RawRecord) (r : RawRecord) :
    r ∈ survivors rs ↔ r ∈ rs ∧ keepRow r = true := by
  simp only [survivors, filterQtyPrice, filterNumeric, filterDate,
    List.mem_filter, keepRow, Bool.and_eq_true]
  tauto

theorem keepRow_parts (r : RawRecord) (h : keepRow r = true) :
    r.invoiceDate.isSome = true ∧ r.quantity.isSome = true ∧
      r.price.isSome = true ∧ r.quantity.getD 0 ≠ 0 ∧ 0 < r.price.getD 0 := by
  simpa [keepRow, Bool.and_eq_true, and_assoc] using h

theorem keepRow_iff (r : RawRecord) (t : Timestamp) (q p : Rat)
    (hd : r.invoiceDate = some t) (hq : r.quantity = some q)
    (hp : r.price = some p) : keepRow r = true ↔ q ≠ 0 ∧ 0 < p := by
  simp [keepRow, hd, hq, hp]

theorem survivors_singleton (r : RawRecord) (h : keepRow r = true) :
    survivors [r] = [r] := by
  obtain ⟨hd, hq, hp, hq0, hp0⟩ := keepRow_parts r h
  simp [survivors, filterDate, filterNumeric, filterQtyPrice, hd, hq, hp,
    hq0, hp0]

theorem cleanStage_singleton (r : RawRecord) (h : keepRow r = true) :
    cleanStage [r] = (cleanSurvivor r).map (fun c => [c]) := by
  rw [cleanStage, survivors_singleton r h]
  cases hc : cleanSurvivor r <;> simp [mapExcept, hc, Except.map]

theorem cleanSurvivor_ok_inv (r : RawRecord) (c : CleanedRecord)
    (h : cleanSurvivor r = .ok c) :
    ∃ t q p cid, r.invoiceDate = some t ∧ r.quantity = some q ∧
      r.price = some p ∧ renderCustomerId r.customerId = .ok cid ∧
      c = { invoiceNo := r.invoice.trim
            invoiceDatetime := formatDatetime t
            fullDate := formatDate t
            year := (t.year : Int)
            month := (t.month : Int)
            monthName := monthAbbrev t.month
            quarter := ((t.month : Int) - 1).ediv 3 + 1
            stockCode := r.stockCode.trim
            description := r.description.trim
            country := r.country.trim
            customerId := cid
            quantity := truncToInt q
            unitPrice := p
            revenue := (truncToInt q : Rat) * p
            isReturn := if truncToInt q < 0 then 1 else 0 } := by
  simp only [cleanSurvivor] at h
  cases hd : r.invoiceDate with
  | none => rw [hd] at h; simp at h
  | some t =>
    rw [hd] at h
    cases hq : r.quantity with
    | none => rw [hq] at h; simp at h
    | some q =>
      rw [hq] at h
      cases hp : r.price with
      | none => rw [hp] at h; simp at h
      | some p =>
        rw [hp] at h
        cases hcid : renderCustomerId r.customerId with
        | error e => rw [hcid] at h; simp at h
        | ok cid =>
          rw [hcid] at h
          simp only [Except.ok.injEq] at h
          exact ⟨t, q, p, cid, rfl, rfl, rfl, rfl, h.symm⟩

theorem truncToInt_of_den_one (q : Rat) (h : q.den = 1) : truncToInt q = q.num := by
  rw [truncToInt, if_pos h]

theorem truncToInt_ne_zero (q : Rat) (hden : q.den = 1) (hq : q ≠ 0) :
    truncToInt q ≠ 0 := by
  rw [truncToInt_of_den_one q hden]
  exact Rat.num_ne_zero.mpr hq

theorem dropDuplicatesBy_id_nodup [DecidableEq α] (l : List α) :
    (dropDuplicatesBy id l).Nodup := by
  simpa using dropDuplicatesBy_nodup id l

theorem nodup_filter_eq_length [DecidableEq α] (p : α) :
    ∀ l : List α, l.Nodup →
      (l.filter (fun b => decide (b = p))).length = if p ∈ l then 1 else 0 := by
  intro l
  induction l with
  | nil => intro _; simp
  | cons x xs ih =>
    intro hnd
    rw [List.nodup_cons] at hnd
    rw [List.filter_cons]
    by_cases hx : x = p
    · subst hx
      have hnil : xs.filter (fun b => decide (b = x)) = [] := by
        rw [List.filter_eq_nil_iff]
        intro a ha hak
        exact hnd.1 ((of_decide_eq_true hak) ▸ ha)
      simp [hnil]
    · have hpx : ¬p = x := fun h => hx h.symm
      simp [hx, hpx, ih hnd.2]

/-! The claims. -/

/-- Claim C1: every fact row produced by the resolution step has all four
surrogate keys non-null and equal to the key of an existing entry in the
corresponding dimension table, because the dimensions are built from the same
cleaned records that the fact rows are resolved from. -/
theorem fact_keys_resolve (cleaned : List CleanedRecord) (f : FactRow)
    (hf : f ∈ resolveFacts cleaned) :
    (∃ e ∈ dimDate cleaned, f.dateKey = some e.1) ∧
      (∃ e ∈ dimCustomer cleaned, f.customerKey = some e.1) ∧
      (∃ e ∈ dimCountry cleaned, f.countryKey = some e.1) ∧
      (∃ e ∈ dimProduct cleaned, f.productKey = some e.1) := by
  obtain ⟨r, hr, hfr⟩ := List.mem_flatMap.mp hf
  obtain ⟨hdk, hck, hcok, hpk⟩ := mem_resolveRecord _ _ _ _ r f hfr
  refine ⟨?_, ?_, ?_, ?_⟩
  · obtain ⟨e, he, hoe, _⟩ :=
      mergeLeft_found _ _ _ (dimDate_covers cleaned r hr) f.dateKey hdk
    exact ⟨e, he, hoe⟩
  · obtain ⟨e, he, hoe, _⟩ :=
      mergeLeft_found _ _ _ (dimCustomer_covers cleaned r hr) f.customerKey hck
    exact ⟨e, he, hoe⟩
  · obtain ⟨e, he, hoe, _⟩ :=
      mergeLeft_found _ _ _ (dimCountry_covers cleaned r hr) f.countryKey hcok
    exact ⟨e, he, hoe⟩
  · obtain ⟨e, he, hoe, _⟩ :=
      mergeLeft_found _ _ _ (dimProduct_covers cleaned r hr) f.productKey hpk
    exact ⟨e, he, hoe⟩

/-- A cleaned record used to instantiate the resolver claims concretely. -/
def sampleCleaned : CleanedRecord :=
  { invoiceNo := "536365", invoiceDatetime := "2010-12-01 08:26:00",
    fullDate := "2010-12-01", year := 2010, month := 12, monthName := "Dec",
    quarter := 4, stockCode := "71053", description := "WHITE METAL LANTERN",
    country := "United Kingdom", customerId := "17850", quantity := 6,
    unitPrice := 3.39, revenue := 20.34, isReturn := 0 }

/-- The single fact row resolved from `sampleCleaned`. -/
def sampleFact : FactRow :=
  { invoiceNo := "536365", invoiceDatetime := "2010-12-01 08:26:00",
    dateKey := some 1, customerKey := some 1, productKey := some 1,
    countryKey := some 1, quantity := 6, unitPrice := 3.39, revenue := 20.34,
    isReturn := 0 }

/-- Witness for `fact_keys_resolve` at a concrete cleaned record. -/
theorem fact_keys_resolve_witness :
    (∃ e ∈ dimDate [sampleCleaned], sampleFact.dateKey = some e.1) ∧
      (∃ e ∈ dimCustomer [sampleCleaned], sampleFact.customerKey = some e.1) ∧
      (∃ e ∈ dimCountry [sampleCleaned], sampleFact.countryKey = some e.1) ∧
      (∃ e ∈ dimProduct [sampleCleaned], sampleFact.productKey = some e.1) :=
  fact_keys_resolve [sampleCleaned] sampleFact (by with_unfolding_all decide)

/-- Claim C8: the fact-resolution step produces exactly one fact row per
cleaned record — the joins against the four deduplicated dimensions neither
duplicate nor lose a record — so the number of persisted fact rows equals the
number of cleaned records. -/
theorem fact_count_eq_cleaned_count (cleaned : List CleanedRecord) :
    (loadFacts (resolveFacts cleaned)).length = cleaned.length :=
  resolveFacts_length cleaned

/-- Claim C5: the product dimension contains exactly one entry per distinct
(stock_code, description) pair occurring in the cleaned records, and two
cleaned records with the same stock code but different description text yield
two distinct product entries. -/
theorem product_dim_entries (cleaned : List CleanedRecord) :
    (∀ p : String × String,
      ((dimProduct cleaned).filter (fun e => decide (e.2 = p))).length =
        if p ∈ cleaned.map (fun r => (r.stockCode, r.description)) then 1
        else 0) ∧
    (∀ r1, r1 ∈ cleaned → ∀ r2, r2 ∈ cleaned →
      r1.stockCode = r2.stockCode → r1.description ≠ r2.description →
      ∃ e1 ∈ dimProduct cleaned, ∃ e2 ∈ dimProduct cleaned,
        e1.2 = (r1.stockCode, r1.description) ∧
        e2.2 = (r2.stockCode, r2.description) ∧ e1 ≠ e2) := by
  constructor
  · intro p
    rw [dimProduct, insertOrIgnore,
      enumKeysFrom_filter_snd_length (fun b => decide (b = p)) 1,
      nodup_filter_eq_length p _
        (dropDuplicatesBy_id_nodup
          (dropDuplicatesBy id (cleaned.map (fun r => (r.stockCode, r.description)))))]
    simp only [mem_dropDuplicatesBy_id]
  · intro r1 h1 r2 h2 hsc hdesc
    obtain ⟨e1, he1, hk1⟩ := dimProduct_covers cleaned r1 h1
    obtain ⟨e2, he2, hk2⟩ := dimProduct_covers cleaned r2 h2
    refine ⟨e1, he1, e2, he2, hk1, hk2, ?_⟩
    intro hee
    apply hdesc
    have hpair : (r1.stockCode, r1.description) = (r2.stockCode, r2.description) := by
      rw [← hk1, ← hk2, hee]
    simpa using congrArg Prod.snd hpair

/-- Two cleaned records sharing a stock code but not a description, to
instantiate `product_dim_entries`. -/
def sampleProductA : CleanedRecord :=
  { sampleCleaned with stockCode := "21730", description := "GLASS STAR" }

/-- Second sample record with the same stock code as `sampleProductA` and a
different description. -/
def sampleProductB : CleanedRecord :=
  { sampleCleaned with stockCode := "21730", description := "GLASS STAR T-LIGHT" }

/-- Witness for `product_dim_entries` at two concrete records differing only
in description. -/
theorem product_dim_entries_witness :
    ∃ e1 ∈ dimProduct [sampleProductA, sampleProductB],
      ∃ e2 ∈ dimProduct [sampleProductA, sampleProductB],
        e1.2 = (sampleProductA.stockCode, sampleProductA.description) ∧
        e2.2 = (sampleProductB.stockCode, sampleProductB.description) ∧
        e1 ≠ e2 :=
  (product_dim_entries [sampleProductA, sampleProductB]).2
    sampleProductA (by with_unfolding_all decide)
    sampleProductB (by with_unfolding_all decide)
    (by with_unfolding_all decide) (by with_unfolding_all decide)

/-- A raw input row whose quantity parses to the non-integral value 0.5. -/
def sampleHalfQtyRow : RawRecord :=
  { invoice := "9", stockCode := "C", description := "BULK ITEM",
    quantity := some 0.5, invoiceDate := some ⟨2011, 5, 4, 12, 0, 0⟩,
    price := some 1, customerId := none, country := "Spain" }

/-- Counterexample to claim C2 as stated: a raw quantity of 0.5 passes the
`quantity != 0` filter of line 61, and `astype(int)` on line 88 truncates it
to 0, so a record with quantity 0 survives the cleaning stage. -/
theorem cleaned_invariants_counterexample :
    (cleanStage [sampleHalfQtyRow]).map (List.map (fun c => c.quantity)) =
      .ok [0] := by
  with_unfolding_all decide

/-- Claim C2 (amended): provided every parsed quantity in the file is
integer-valued (the spec's Raw Record model declares quantity a signed
integer), every record surviving the cleaning stage has a nonzero quantity and
a strictly positive unit price; every surviving row had a parseable invoice
date; and a row with parsed date, quantity and price is kept iff its quantity
is nonzero and its price strictly positive — so returns (negative quantity)
are kept while zero quantities and non-positive prices are dropped.  Without
the integrality proviso the first part fails: a parsed quantity in (-1, 1)
other than 0 is truncated to a zero quantity by `astype(int)`. -/
theorem cleaned_invariants (rows : List RawRecord)
    (cleaned : List CleanedRecord) (hok : cleanStage rows = .ok cleaned)
    (hint : ∀ r ∈ rows, ∀ q ∈ r.quantity, q.den = 1) :
    (∀ c ∈ cleaned, c.quantity ≠ 0 ∧ 0 < c.unitPrice) ∧
      (∀ r : RawRecord, keepRow r = true → r.invoiceDate.isSome = true) ∧
      (∀ (r : RawRecord) (t : Timestamp) (q p : Rat), r.invoiceDate = some t →
        r.quantity = some q → r.price = some p →
        (keepRow r = true ↔ q ≠ 0 ∧ 0 < p)) := by
  refine ⟨?_, ?_, ?_⟩
  · intro c hc
    obtain ⟨r, hr, hrc⟩ := mapExcept_ok_mem cleanSurvivor _ _ hok c hc
    have hrs := (mem_survivors rows r).mp hr
    obtain ⟨t, q, p, cid, hd, hq, hp, hcid, hceq⟩ := cleanSurvivor_ok_inv r c hrc
    have hden : q.den = 1 := hint r hrs.1 q hq
    have hkeep := (keepRow_iff r t q p hd hq hp).mp hrs.2
    subst hceq
    exact ⟨truncToInt_ne_zero q hden hkeep.1, hkeep.2⟩
  · intro r h
    exact (keepRow_parts r h).1
  · intro r t q p hd hq hp
    exact keepRow_iff r t q p hd hq hp

/-- A raw input row recording a return: quantity -2 at price 3. -/
def sampleReturnRow : RawRecord :=
  { invoice := "5", stockCode := "D", description := "RED HARMONICA",
    quantity := some (-2), invoiceDate := some ⟨2011, 7, 8, 14, 30, 0⟩,
    price := some 3, customerId := none, country := "Italy" }

/-- The cleaned record produced from `sampleReturnRow`. -/
def sampleReturnCleaned : CleanedRecord :=
  { invoiceNo := "5", invoiceDatetime := "2011-07-08 14:30:00",
    fullDate := "2011-07-08", year := 2011, month := 7, monthName := "Jul",
    quarter := 3, stockCode := "D", description := "RED HARMONICA",
    country := "Italy", customerId := "GUEST", quantity := -2,
    unitPrice := 3, revenue := -6, isReturn := 1 }

/-- Witness for `cleaned_invariants` at a concrete one-row input (a return,
which is kept). -/
theorem cleaned_invariants_witness :
    (∀ c ∈ [sampleReturnCleaned], c.quantity ≠ 0 ∧ 0 < c.unitPrice) ∧
      (∀ r : RawRecord, keepRow r = true → r.invoiceDate.isSome = true) ∧
      (∀ (r : RawRecord) (t : Timestamp) (q p : Rat), r.invoiceDate = some t →
        r.quantity = some q → r.price = some p →
        (keepRow r = true ↔ q ≠ 0 ∧ 0 < p)) :=
  cleaned_invariants [sampleReturnRow] [sampleReturnCleaned]
    (by with_unfolding_all decide) (by with_unfolding_all decide)

/-- Claim C10: the run aborts with an unhandled error during customer-id
normalization on any surviving row whose Customer ID parses to a value that is
not integer-valued, because `astype("Int64")` cannot safely cast it. -/
theorem nonintegral_customer_aborts (r : RawRecord) (v : Rat)
    (hk : keepRow r = true) (hc : r.customerId = some v) (hv : v.den ≠ 1) :
    cleanStage [r] = .error CleanError.nonIntegralCustomerId := by
  rw [cleanStage_singleton r hk]
  obtain ⟨hd, hq, hp, _, _⟩ := keepRow_parts r hk
  obtain ⟨t, ht⟩ := Option.isSome_iff_exists.mp hd
  obtain ⟨q, hq'⟩ := Option.isSome_iff_exists.mp hq
  obtain ⟨p, hp'⟩ := Option.isSome_iff_exists.mp hp
  have hcs : cleanSurvivor r = .error .nonIntegralCustomerId := by
    simp [cleanSurvivor, ht, hq', hp', renderCustomerId, hc, hv]
  rw [hcs]
  rfl

/-- A raw input row whose Customer ID parses to the non-integral 12345.7. -/
def sampleFracIdRow : RawRecord :=
  { invoice := "1", stockCode := "A", description := "ITEM A",
    quantity := some 1, invoiceDate := some ⟨2011, 3, 2, 10, 0, 0⟩,
    price := some 2, customerId := some 12345.7, country := "France" }

/-- Witness for `nonintegral_customer_aborts` at the concrete id 12345.7. -/
theorem nonintegral_customer_aborts_witness :
    cleanStage [sampleFracIdRow] = .error CleanError.nonIntegralCustomerId :=
  nonintegral_customer_aborts sampleFracIdRow 12345.7
    (by with_unfolding_all decide) rfl (by with_unfolding_all decide)

/-- A second surviving row with a non-integral parsed Customer ID (7.5). -/
def sampleFracIdRowB : RawRecord :=
  { invoice := "2", stockCode := "B", description := "ITEM B",
    quantity := some 4, invoiceDate := some ⟨2011, 4, 6, 11, 0, 0⟩,
    price := some 5, customerId := some 7.5, country := "Norway" }

/-- Counterexample to claim C4 as stated: this row survives all earlier
filtering rules and its Customer ID field parses as a number (7.5), yet
normalization neither renders it as an integer string nor retains the row —
the whole cleaning stage raises instead. -/
theorem customer_id_normalization_counterexample :
    keepRow sampleFracIdRowB = true ∧
      cleanStage [sampleFracIdRowB] = .error CleanError.nonIntegralCustomerId := by
  constructor
  · with_unfolding_all decide
  · with_unfolding_all decide

/-- Claim C4 (amended): for a row surviving the earlier filtering rules, an
absent (or unparseable, hence NaN) Customer ID keeps the row with the sentinel
"GUEST"; a Customer ID parsing to an integer-valued number keeps the row with
the canonical integer string; but a Customer ID parsing to a non-integral
number aborts the whole run rather than normalizing it. -/
theorem customer_id_normalization (r : RawRecord) (hk : keepRow r = true) :
    (r.customerId = none →
      (cleanStage [r]).map (List.map (fun c => c.customerId)) = .ok ["GUEST"]) ∧
      (∀ v : Rat, r.customerId = some v → v.den = 1 →
        (cleanStage [r]).map (List.map (fun c => c.customerId)) =
          .ok [toString v.num]) ∧
      (∀ v : Rat, r.customerId = some v → v.den ≠ 1 →
        cleanStage [r] = .error CleanError.nonIntegralCustomerId) := by
  obtain ⟨hd, hq, hp, _, _⟩ := keepRow_parts r hk
  obtain ⟨t, ht⟩ := Option.isSome_iff_exists.mp hd
  obtain ⟨q, hq'⟩ := Option.isSome_iff_exists.mp hq
  obtain ⟨p, hp'⟩ := Option.isSome_iff_exists.mp hp
  refine ⟨?_, ?_, ?_⟩
  · intro hnone
    rw [cleanStage_singleton r hk]
    simp [cleanSurvivor, ht, hq', hp', renderCustomerId, hnone, Except.map]
  · intro v hv hden
    rw [cleanStage_singleton r hk]
    simp [cleanSurvivor, ht, hq', hp', renderCustomerId, hv, hden, Except.map]
  · intro v hv hden
    rw [cleanStage_singleton r hk]
    simp [cleanSurvivor, ht, hq', hp', renderCustomerId, hv, hden, Except.map]

/-- A raw input row whose Customer ID parses to the float-style 12345.0. -/
def sampleNumericIdRow : RawRecord :=
  { invoice := "3", stockCode := "E", description := "ITEM E",
    quantity := some 2, invoiceDate := some ⟨2011, 6, 1, 15, 0, 0⟩,
    price := some 4, customerId := some 12345.0, country := "Germany" }

/-- Witness for `customer_id_normalization`: the 12345.0-style id normalizes
to the canonical integer string. -/
theorem customer_id_normalization_witness :
    (cleanStage [sampleNumericIdRow]).map (List.map (fun c => c.customerId)) =
      .ok [toString (12345.0 : Rat).num] :=
  (customer_id_normalization sampleNumericIdRow
      (by with_unfolding_all decide)).2.1 12345.0 rfl
    (by with_unfolding_all decide)

/-- Claim C6: if any fact row fails to find one of its four dimension keys,
the run prints a warning carrying the count of missing keys per dimension and
still loads every row (null keys included) rather than aborting; if no lookup
fails, no warning is printed. -/
theorem missing_key_warning (facts : List FactRow) :
    ((∃ f ∈ facts, f.dateKey = none ∨ f.customerKey = none ∨
        f.countryKey = none ∨ f.productKey = none) →
      keyWarnings facts = [.missingKeyWarning (missingCounts facts)] ∧
        loadFacts facts = facts) ∧
      ((∀ f ∈ facts, f.dateKey.isSome = true ∧ f.customerKey.isSome = true ∧
          f.countryKey.isSome = true ∧ f.productKey.isSome = true) →
        keyWarnings facts = []) := by
  constructor
  · intro hex
    obtain ⟨f, hf, hcase⟩ := hex
    refine ⟨?_, rfl⟩
    rw [keyWarnings, if_pos]
    rcases hcase with h | h | h | h
    · exact Or.inl (by
        simp only [missingCounts]
        exact List.countP_pos_iff.mpr ⟨f, hf, by simp [h]⟩)
    · exact Or.inr (Or.inl (by
        simp only [missingCounts]
        exact List.countP_pos_iff.mpr ⟨f, hf, by simp [h]⟩))
    · exact Or.inr (Or.inr (Or.inl (by
        simp only [missingCounts]
        exact List.countP_pos_iff.mpr ⟨f, hf, by simp [h]⟩)))
    · exact Or.inr (Or.inr (Or.inr (by
        simp only [missingCounts]
        exact List.countP_pos_iff.mpr ⟨f, hf, by simp [h]⟩)))
  · intro hall
    have hzero : ∀ g : FactRow → Option Nat,
        (∀ f ∈ facts, (g f).isSome = true) →
        facts.countP (fun f => (g f).isNone) = 0 := by
      intro g hg
      rw [List.countP_eq_zero]
      intro f hf
      obtain ⟨a, ha⟩ := Option.isSome_iff_exists.mp (hg f hf)
      simp [ha]
    have h1 := hzero (fun f => f.dateKey) (fun f hf => (hall f hf).1)
    have h2 := hzero (fun f => f.customerKey) (fun f hf => (hall f hf).2.1)
    have h3 := hzero (fun f => f.countryKey) (fun f hf => (hall f hf).2.2.1)
    have h4 := hzero (fun f => f.productKey) (fun f hf => (hall f hf).2.2.2)
    have hcond : ¬(0 < (missingCounts facts).dateMissing ∨
        0 < (missingCounts facts).customerMissing ∨
        0 < (missingCounts facts).countryMissing ∨
        0 < (missingCounts facts).productMissing) := by
      simp only [missingCounts]
      rw [h1, h2, h3, h4]
      simp
    rw [keyWarnings, if_neg hcond]

/-- A fact row whose date key failed to resolve. -/
def sampleMissingFact : FactRow :=
  { sampleFact with dateKey := none }

/-- Witness for `missing_key_warning` at a concrete fact row with a null date
key. -/
theorem missing_key_warning_witness :
    keyWarnings [sampleMissingFact] =
      [.missingKeyWarning (missingCounts [sampleMissingFact])] ∧
      loadFacts [sampleMissingFact] = [sampleMissingFact] :=
  (missing_key_warning [sampleMissingFact]).1
    ⟨sampleMissingFact, by with_unfolding_all decide,
      Or.inl (by with_unfolding_all decide)⟩

/-- A raw input row that survives every cleaning rule. -/
def sampleValidRow : RawRecord :=
  { invoice := "7", stockCode := "F", description := "ITEM F",
    quantity := some 2, invoiceDate := some ⟨2011, 1, 5, 9, 0, 0⟩,
    price := some 1, customerId := none, country := "France" }

/-- A raw input row dropped for having quantity 0. -/
def sampleZeroQtyRow : RawRecord :=
  { sampleValidRow with invoice := "8", quantity := some 0 }

/-- A raw input row dropped for having price -1. -/
def sampleNegPriceRow : RawRecord :=
  { sampleValidRow with invoice := "10", price := some (-1) }

/-- Counterexample to claim C3 as stated: on an input containing a Quantity=0
row and a Price=-1 row, the complete diagnostic output of the run is the fact
row count and the returns breakdown — no per-stage drop counter of any kind is
produced, so no zero-quantity or non-positive-price counter is incremented. -/
theorem drop_counters_counterexample :
    runLog [sampleValidRow, sampleZeroQtyRow, sampleNegPriceRow] =
      [.factRowCount 1, .returnsCount 0 1] ∧
      (runLog [sampleValidRow, sampleZeroQtyRow, sampleNegPriceRow]).any
          isDropMsg = false := by
  constructor
  · with_unfolding_all decide
  · with_unfolding_all decide

/-- Claim C3 (amended): the run never reports per-stage drop counts — rows
dropped by the filtering stages are removed silently, and every diagnostic the
run prints is a missing-key warning, the fact row count, or a returns-count
line; on a successful run the fact row count is always among them. -/
theorem run_log_no_drop_counters (rows : List RawRecord) :
    (∀ m ∈ runLog rows, isDropMsg m = false) ∧
      (∀ cleaned, cleanStage rows = .ok cleaned →
        LogMsg.factRowCount (resolveFacts cleaned).length ∈ runLog rows) := by
  constructor
  · intro m hm
    rw [runLog] at hm
    cases hcl : cleanStage rows with
    | error e => rw [hcl] at hm; simp at hm
    | ok cleaned =>
      rw [hcl] at hm
      simp only [List.mem_append, List.mem_map, List.mem_singleton] at hm
      rcases hm with (hm | hm) | hm
      · rw [keyWarnings] at hm
        split at hm
        · rw [List.mem_singleton] at hm
          subst hm
          rfl
        · simp at hm
      · subst hm
        rfl
      · obtain ⟨p, _, rfl⟩ := hm
        rfl
  · intro cleaned hcl
    rw [runLog, hcl]
    simp [loadFacts]

/-- The cleaned record produced from `sampleValidRow`. -/
def sampleValidCleaned : CleanedRecord :=
  { invoiceNo := "7", invoiceDatetime := "2011-01-05 09:00:00",
    fullDate := "2011-01-05", year := 2011, month := 1, monthName := "Jan",
    quarter := 1, stockCode := "F", description := "ITEM F",
    country := "France", customerId := "GUEST", quantity := 2,
    unitPrice := 1, revenue := 2, isReturn := 0 }

/-- Witness for `run_log_no_drop_counters` at a concrete one-row input. -/
theorem run_log_no_drop_counters_witness :
    isDropMsg (LogMsg.factRowCount 1) = false ∧
      LogMsg.factRowCount (resolveFacts [sampleValidCleaned]).length ∈
        runLog [sampleValidRow] :=
  ⟨(run_log_no_drop_counters [sampleValidRow]).1 (LogMsg.factRowCount 1)
      (by with_unfolding_all decide),
    (run_log_no_drop_counters [sampleValidRow]).2 [sampleValidCleaned]
      (by with_unfolding_all decide)⟩

theorem mapExcept_col_error (columns : List String) :
    ∀ (names : List String) (m : MissingColumn),
      mapExcept (col columns) names = .error m →
        m.found = columns ∧ m.name ∈ names := by
  intro names
  induction names with
  | nil => intro m h; simp [mapExcept] at h
  | cons n ns ih =>
    intro m h
    simp only [mapExcept] at h
    cases hc : col columns n with
    | error m' =>
      rw [hc] at h
      simp only [Except.error.injEq] at h
      subst h
      rw [col] at hc
      cases hf : columns.find?
          (fun c => decide (c.trim.toLower = n.trim.toLower)) with
      | some c => rw [hf] at hc; simp at hc
      | none =>
        rw [hf] at hc
        simp only [Except.error.injEq] at hc
        rw [← hc]
        exact ⟨rfl, List.mem_cons_self _ _⟩
    | ok c =>
      rw [hc] at h
      cases hrest : mapExcept (col columns) ns with
      | error m2 =>
        rw [hrest] at h
        simp only [Except.error.injEq] at h
        obtain ⟨h1, h2⟩ := ih m2 hrest
        exact ⟨h ▸ h1, List.mem_cons_of_mem _ (h ▸ h2)⟩
      | ok cs => rw [hrest] at h; simp at h

/-- Claim C7: column names are matched case- and whitespace-insensitively
(stripped and lowercased); a required column with no such match makes `col`
fail with an error naming the absent column and listing the columns actually
found, and the whole run aborts with that error for every row list, i.e.
before any row is processed. -/
theorem missing_column_aborts (columns : List String) (name : String)
    (rows : List RawRecord) (m : MissingColumn) :
    (col columns name = .error ⟨name, columns⟩ ↔
      ∀ c ∈ columns, c.trim.toLower ≠ name.trim.toLower) ∧
      (resolveColumns columns = .error m →
        runFile columns rows = .error (.missingColumn m) ∧
          m.found = columns ∧ m.name ∈ requiredColumns) := by
  constructor
  · constructor
    · intro h c hc hceq
      rw [col] at h
      cases hf : columns.find?
          (fun c => decide (c.trim.toLower = name.trim.toLower)) with
      | some c' => rw [hf] at h; simp at h
      | none =>
        have := List.find?_eq_none.mp hf c hc
        simp [hceq] at this
    · intro hall
      rw [col]
      cases hf : columns.find?
          (fun c => decide (c.trim.toLower = name.trim.toLower)) with
      | some c' =>
        have h1 := List.find?_some hf
        have h2 := List.mem_of_find?_eq_some hf
        exact absurd (of_decide_eq_true h1) (hall c' h2)
      | none => rfl
  · intro hres
    refine ⟨?_, ?_⟩
    · simp [runFile, hres]
    · exact mapExcept_col_error columns requiredColumns m hres

/-- A header missing the required `Customer ID` column. -/
def sampleHeader : List String :=
  ["Invoice", "StockCode", "Description", "Quantity", "InvoiceDate", "Price",
   "Country"]

/-- Witness for `missing_column_aborts` at a concrete seven-column header. -/
theorem missing_column_aborts_witness :
    runFile sampleHeader [] =
        .error (.missingColumn ⟨"Customer ID", sampleHeader⟩) ∧
      (⟨"Customer ID", sampleHeader⟩ : MissingColumn).found = sampleHeader ∧
      (⟨"Customer ID", sampleHeader⟩ : MissingColumn).name ∈ requiredColumns :=
  (missing_column_aborts sampleHeader "Invoice" []
      ⟨"Customer ID", sampleHeader⟩).2 (by with_unfolding_all decide)

/-- Claim C9: the spec's single-row scenario.  The input row
`Invoice=536365, StockCode=71053, Description="WHITE METAL LANTERN",
Quantity=6, InvoiceDate=2010-12-01 08:26, Price=3.39, Customer ID=17850,
Country=United Kingdom` cleans to a record with `full_date=2010-12-01`,
`year=2010`, `month=12`, `quarter=4`, `revenue=20.34`, `is_return=0` and
`customer_id="17850"`. -/
theorem scenario_row_536365 :
    (cleanStage [{ invoice := "536365", stockCode := "71053",
                   description := "WHITE METAL LANTERN", quantity := some 6,
                   invoiceDate := some ⟨2010, 12, 1, 8, 26, 0⟩,
                   price := some 3.39, customerId := some 17850,
                   country := "United Kingdom" }]).map
      (List.map (fun c => (c.fullDate, c.year, c.month, c.quarter, c.revenue,
        c.isReturn, c.customerId))) =
      .ok [("2010-12-01", 2010, 12, 4, 20.34, 0, "17850")] := by
  with_unfolding_all decide
